import Mathlib

/-!
Verification of the OAuth login/callback flow of `api/controllers/console/auth/oauth.py`:
account lookup (`_get_account_by_openid_or_email`), provisioning (`_generate_account`),
the Casdoor organization-to-tenant hierarchy synchronization (`_sync_user_organizations`),
and the HTTP callback handler (`OAuthCallback.get`).

The Python code is shallowly embedded: the database session becomes an explicit `DB`
record threaded through the functions, the external collaborators (feature flags, billing
freeze list, invitation service, OAuth provider client, request languages, clock) become
an explicit environment record, and Python string operations (`in`, `split`,
`split(sep, 1)`, `join`) are translated as structural recursion over `List Char` with the
exact CPython semantics (in particular `"".split('-') == ['']`).

Convention for ORM rows: the `Account` row being processed by a flow is carried as an
explicit `Account` value; attribute assignments on it (status, current tenant, interface
language) update that value.  `DB.accounts` holds the stored account rows used by the
lookup step, and rows created by registration are appended to it.
-/

/-! ## Python string semantics -/

/-- CPython `s.split(sep)` on a list of characters: `chSplit sep [] = [[]]`, matching
`"".split(sep) == ['']`. -/
def chSplit (sep : Char) : List Char → List (List Char)
  | [] => [[]]
  | c :: rest =>
      let r := chSplit sep rest
      if c == sep then [] :: r
      else
        match r with
        | [] => [[c]]
        | g :: gs => (c :: g) :: gs

/-- CPython `s.split(sep)` for one-character separators. -/
def pySplit (sep : Char) (s : String) : List String :=
  (chSplit sep s.data).map (fun l => String.mk l)

/-- Splits a character list at the first occurrence of `sep`; `none` when absent. -/
def chBreak (sep : Char) : List Char → Option (List Char × List Char)
  | [] => none
  | c :: rest =>
      if c == sep then some ([], rest)
      else
        match chBreak sep rest with
        | none => none
        | some (a, b) => some (c :: a, b)

/-- CPython `s.split(sep, 1)` for a one-character separator, as the pair of the part
before the first separator and the rest (the whole string and `""` when absent). -/
def pySplitOnce (sep : Char) (s : String) : String × String :=
  match chBreak sep s.data with
  | some (a, b) => (String.mk a, String.mk b)
  | none => (s, "")

/-- CPython `c in s` for a single character. -/
def pyContains (s : String) (c : Char) : Bool :=
  s.data.any (fun x => x == c)

/-- CPython `sep.join(parts)`. -/
def pyJoin (sep : String) : List String → String
  | [] => ""
  | [x] => x
  | x :: rest => x ++ sep ++ pyJoin sep rest

/-- CPython truthiness of an optional string: `None` and `""` are falsy.  Used for
`request.args.get("code")` and `request.args.get("state")`. -/
def pyTruthy : Option String → Option String
  | none => none
  | some s => if s == "" then none else some s

/-- CPython `x or default` for an optional string (`None` and `""` both fall through). -/
def pyOr (x : Option String) (default : String) : String :=
  match x with
  | none => default
  | some s => if s == "" then default else s

/-! ## Data model (`models.account`) -/

/-- Account status enum (`models.AccountStatus`); only the values used by the flow. -/
inductive AccountStatus where
  | pending
  | active
  | banned
deriving DecidableEq

/-- An `Account` row.  `current_tenant_id` models `account.current_tenant` (a weak tenant
reference, `none` when unset); `init_time` models `account.initialized_at`. -/
structure Account where
  id : Nat
  email : String
  name : String
  status : AccountStatus
  interface_language : String
  current_tenant_id : Option Nat
  init_time : Option Nat
deriving DecidableEq

/-- A `Tenant` row with the columns used by the flow (`name`, `casdoor_org_id`,
`parent_id`, `plan`, `status`). -/
structure Tenant where
  id : Nat
  name : String
  casdoor_org_id : Option String
  parent_id : Option Nat
  plan : String
  status : String
deriving DecidableEq

/-- A `CasdoorOrganizationMapping` row: external organization path key to tenant id. -/
structure CasdoorOrganizationMapping where
  casdoor_org_id : String
  tenant_id : Nat
deriving DecidableEq

/-- A `TenantAccountJoin` row: membership of an account in a tenant with a role. -/
structure TenantAccountJoin where
  tenant_id : Nat
  account_id : Nat
  role : String
deriving DecidableEq

/-- An `AccountIntegrate` row: provider identity link (provider, open id) for an account. -/
structure AccountIntegrate where
  provider : String
  open_id : String
  account_id : Nat
deriving DecidableEq

/-- The database state.  `nextId` models id generation for rows created with
`db.session.add` followed by `flush`. -/
structure DB where
  tenants : List Tenant
  mappings : List CasdoorOrganizationMapping
  memberships : List TenantAccountJoin
  accounts : List Account
  integrates : List AccountIntegrate
  nextId : Nat
deriving DecidableEq

/-- The external identity returned by the OAuth provider client (`libs.oauth.OAuthUserInfo`
as used by this controller: `id`, `name`, `email`, `organizations`). -/
structure OAuthUserInfo where
  id : String
  name : Option String
  email : String
  organizations : List String
deriving DecidableEq

/-! ## External collaborators as modelled services -/

/-- Modelled from the spec: `TenantService.get_join_tenants` (services/account_service.py,
not under src/) returns the tenants the account is a member of, resolved through the
`TenantAccountJoin` rows in row order; memberships whose tenant row is missing do not
contribute (the ORM join drops them). -/
def get_join_tenants (db : DB) (account : Account) : List Tenant :=
  (db.memberships.filter (fun m => m.account_id == account.id)).filterMap
    (fun m => db.tenants.find? (fun t => t.id == m.tenant_id))

/-- Modelled from the spec: `TenantService.create_tenant_member` (services/account_service.py,
not under src/) attaches the account to the tenant with the given role; per the spec the
(tenant, account) pair is unique and a duplicate attachment attempt is a no-op. -/
def create_tenant_member (db : DB) (t : Tenant) (account : Account) (role : String) : DB :=
  if db.memberships.any (fun m => m.tenant_id == t.id && m.account_id == account.id) then db
  else { db with memberships := db.memberships ++ [⟨t.id, account.id, role⟩] }

/-- Modelled from the spec: `TenantService.create_tenant` (services/account_service.py,
not under src/) creates a new tenant row with the given name and no external organization
key and no parent. -/
def create_tenant (db : DB) (name : String) : DB × Tenant :=
  let t : Tenant :=
    { id := db.nextId, name := name, casdoor_org_id := none, parent_id := none,
      plan := "basic", status := "normal" }
  ({ db with tenants := db.tenants ++ [t], nextId := db.nextId + 1 }, t)

/-- Modelled from the spec: `AccountService.link_account_integrate`
(services/account_service.py, not under src/) records the (provider, open id) identity
link for the account; the link is idempotent, so an already-present identical link row is
not duplicated. -/
def link_account_integrate (db : DB) (provider open_id : String) (account : Account) : DB :=
  if db.integrates.any
      (fun l => l.provider == provider && l.open_id == open_id && l.account_id == account.id)
  then db
  else { db with integrates := db.integrates ++ [⟨provider, open_id, account.id⟩] }

/-- Modelled from the spec: `RegisterService.register` (services/account_service.py, not
under src/) creates a new account row in PENDING status with the given email and name and
links the (provider, open id) external identity to it. -/
def register_account (db : DB) (email name open_id provider : String) : DB × Account :=
  let a : Account :=
    { id := db.nextId, email := email, name := name, status := .pending,
      interface_language := "", current_tenant_id := none, init_time := none }
  ({ db with accounts := db.accounts ++ [a],
             integrates := db.integrates ++ [⟨provider, open_id, a.id⟩],
             nextId := db.nextId + 1 }, a)

/-- The environment of ambient services read by the flow: feature flags
(`FeatureService`), billing freeze list (`BillingService.is_email_in_freeze`), the
request accepted-language best match, the supported language list, and the clock. -/
structure SysEnv where
  is_allow_register : Bool
  is_allow_create_workspace : Bool
  billing_enabled : Bool
  email_in_freeze : String → Bool
  preferred_lang : Option String
  languages : List String
  now : Nat

/-- The interface-language choice of `_generate_account`: the accepted-language best
match when it is a supported language, otherwise the first supported language (`languages`
is a nonempty constant in the source; the empty-list default is unreachable there). -/
def chooseInterfaceLanguage (env : SysEnv) : String :=
  match env.preferred_lang with
  | some l => if l != "" && env.languages.contains l then l else env.languages.headD ""
  | none => env.languages.headD ""

/-! ## Organization hierarchy synchronization (`_sync_user_organizations`) -/

/-- The in-memory `org_to_tenant` dictionary of `_sync_user_organizations`. -/
abbrev OrgDict := List (String × Nat)

/-- Lookup in the dictionary; entries closer to the head shadow later ones. -/
def dlookup : OrgDict → String → Option Nat
  | [], _ => none
  | (k, v) :: d, key => if k == key then some v else dlookup d key

/-- The dictionary comprehension over all existing `CasdoorOrganizationMapping` rows;
reversing makes `dlookup` agree with the CPython dict where a later duplicate key wins.
The write-only `tenant_to_org` dict of the source is not modelled: it is never read. -/
def buildOrgDict (ms : List CasdoorOrganizationMapping) : OrgDict :=
  (ms.map (fun m => (m.casdoor_org_id, m.tenant_id))).reverse

/-- The loop state of one `_sync_user_organizations` call: the database, the
`org_to_tenant` dict, and the `user_tenant_ids` list. -/
structure SyncSt where
  db : DB
  dict : OrgDict
  userTids : List Nat
deriving DecidableEq

/-- Creation of a tenant together with its mapping row (source lines 217-236 and
251-270): `Tenant(...)`, `flush`, `CasdoorOrganizationMapping(...)`, dict update. -/
def createTenantWithMapping (s : SyncSt) (name key : String) (parent : Option Nat) :
    Nat × SyncSt :=
  let tid := s.db.nextId
  let t : Tenant :=
    { id := tid, name := name, casdoor_org_id := some key, parent_id := parent,
      plan := "basic", status := "normal" }
  (tid,
   { db := { s.db with
              tenants := s.db.tenants ++ [t],
              mappings := s.db.mappings ++ [⟨key, tid⟩],
              nextId := s.db.nextId + 1 },
     dict := (key, tid) :: s.dict,
     userTids := s.userTids })

/-- The `if key not in org_to_tenant: create ...` then `org_to_tenant[key]` pattern. -/
def ensureOrgTenant (s : SyncSt) (key name : String) (parent : Option Nat) : Nat × SyncSt :=
  match dlookup s.dict key with
  | some tid => (tid, s)
  | none => createTenantWithMapping s name key parent

/-- Attachment of the account to one tenant level (source lines 280-285 and 314-320):
skip when already in `user_tenant_ids`; otherwise fetch the tenant row and, when found,
create the owner membership and append the id. -/
def attachAccount (account : Account) (s : SyncSt) (tid : Nat) : SyncSt :=
  if tid ∈ s.userTids then s
  else
    match s.db.tenants.find? (fun t => t.id == tid) with
    | some t =>
        { s with db := create_tenant_member s.db t account "owner",
                 userTids := s.userTids ++ [tid] }
    | none => s

/-- The `for tenant_id in all_level_tenant_ids` attachment loop. -/
def attachAll (account : Account) (s : SyncSt) (tids : List Nat) : SyncSt :=
  tids.foldl (attachAccount account) s

/-- The `for i, part in enumerate(org_path_parts)` loop (source lines 244-277):
`partsSoFar` is `org_path_parts[:i]`, so the cumulative key of the current level is
`root + "/" + "-".join(partsSoFar + [part])`; `parentTid` is
`current_parent_tenant_id` and `levels` accumulates `all_level_tenant_ids`. -/
def processLevels (account : Account) (rootOrg : String) (partsSoFar : List String)
    (parentTid : Nat) (levels : List Nat) (s : SyncSt) :
    List String → SyncSt × List Nat
  | [] => (s, levels)
  | part :: rest =>
      let soFar := partsSoFar ++ [part]
      let fullPath := rootOrg ++ "/" ++ pyJoin "-" soFar
      let r := ensureOrgTenant s fullPath part (some parentTid)
      processLevels account rootOrg soFar r.1 (levels ++ [r.1]) r.2 rest

/-- Processing of one organization string (source lines 199-320): empty strings are
skipped; a string with `/` is split once into root and child part, the child part split
on `-` into levels; a string without `/` is a single flat tenant keyed by the string. -/
def syncOneOrg (account : Account) (s : SyncSt) (org : String) : SyncSt :=
  if org == "" then s
  else if pyContains org '/' then
    let rootOrg := (pySplitOnce '/' org).1
    let childPart := (pySplitOnce '/' org).2
    let parts := pySplit '-' childPart
    let r := ensureOrgTenant s rootOrg rootOrg none
    let rl := processLevels account rootOrg [] r.1 [r.1] r.2 parts
    attachAll account rl.1 rl.2
  else
    let r := ensureOrgTenant s org org none
    attachAccount account r.2 r.1

/-- The initial loop state: `org_to_tenant` from all existing mapping rows and
`user_tenant_ids` from `TenantService.get_join_tenants`. -/
def initSyncSt (db : DB) (account : Account) : SyncSt :=
  { db := db,
    dict := buildOrgDict db.mappings,
    userTids := (get_join_tenants db account).map (fun t => t.id) }

/-- The `for org in user_info.organizations` loop. -/
def runSyncOrgs (account : Account) (s : SyncSt) (orgs : List String) : SyncSt :=
  orgs.foldl (syncOneOrg account) s

/-- `_sync_user_organizations(account, user_info)` (source lines 180-328), taking
`user_info.organizations` directly.  An empty organization list returns immediately;
otherwise the per-organization loop runs and, when the account has no current tenant and
`user_tenant_ids` is nonempty, the tenant row of the first listed id (when it exists)
becomes the account's current tenant. -/
def _sync_user_organizations (db : DB) (account : Account) (orgs : List String) :
    DB × Account :=
  if orgs.isEmpty then (db, account)
  else
    let s := runSyncOrgs account (initSyncSt db account) orgs
    let account2 :=
      match account.current_tenant_id, s.userTids with
      | none, tid0 :: _ =>
          match s.db.tenants.find? (fun t => t.id == tid0) with
          | some t => { account with current_tenant_id := some t.id }
          | none => account
      | _, _ => account
    (s.db, account2)

/-! ## Account lookup and provisioning -/

/-- The failure modes of `_generate_account` and of the lookup beneath it. -/
inductive GenError where
  | accountNotFound
  | workSpaceNotFound
  | workSpaceNotAllowedCreate
  | accountRegister (description : String)
  | multipleResultsFound
deriving DecidableEq

/-- `Account.get_by_openid(provider, user_info.id)`: resolve the provider identity link
and then its account row. -/
def get_by_openid (db : DB) (provider open_id : String) : Option Account :=
  match db.integrates.find? (fun l => l.provider == provider && l.open_id == open_id) with
  | some l => db.accounts.find? (fun a => a.id == l.account_id)
  | none => none

/-- SQLAlchemy `scalar_one_or_none`: at most one row, otherwise `MultipleResultsFound`. -/
def scalar_one_or_none (rows : List Account) : Except GenError (Option Account) :=
  match rows with
  | [] => .ok none
  | [a] => .ok (some a)
  | _ => .error .multipleResultsFound

/-- `_get_account_by_openid_or_email` (source lines 170-177): lookup by
(provider, open id) first; only when that is absent, lookup by exact email match. -/
def _get_account_by_openid_or_email (db : DB) (provider : String) (user_info : OAuthUserInfo) :
    Except GenError (Option Account) :=
  match get_by_openid db provider user_info.id with
  | some account => .ok (some account)
  | none => scalar_one_or_none (db.accounts.filter (fun a => a.email == user_info.email))

/-- The freeze-list registration error message (source lines 349-354). -/
def freezeErrorMessage : String :=
  "This email account has been deleted within the past " ++
  "30 days and is temporarily unavailable for new account registration"

/-- The unconditional tail of `_generate_account` (source lines 371-377): link the
provider identity, then synchronize the Casdoor organizations, then return the account. -/
def linkAndSync (provider : String) (db : DB) (user_info : OAuthUserInfo)
    (account : Account) : Except GenError (DB × Account) :=
  let db1 := link_account_integrate db provider user_info.id account
  let r := _sync_user_organizations db1 account user_info.organizations
  .ok r

/-- `_generate_account(provider, user_info)` (source lines 331-377). -/
def _generate_account (env : SysEnv) (provider : String) (db : DB)
    (user_info : OAuthUserInfo) : Except GenError (DB × Account) :=
  match _get_account_by_openid_or_email db provider user_info with
  | .error e => .error e
  | .ok (some account) =>
      if (get_join_tenants db account).isEmpty then
        if !env.is_allow_create_workspace then .error .workSpaceNotAllowedCreate
        else
          let r := create_tenant db (account.name ++ "\x27s Workspace")
          let db2 := create_tenant_member r.1 r.2 account "owner"
          let account1 := { account with current_tenant_id := some r.2.id }
          linkAndSync provider db2 user_info account1
      else linkAndSync provider db user_info account
  | .ok none =>
      if !env.is_allow_register then
        if env.billing_enabled && env.email_in_freeze user_info.email then
          .error (.accountRegister freezeErrorMessage)
        else .error (.accountRegister "Invalid email or password")
      else
        let accountName := pyOr user_info.name "Dify"
        let r := register_account db user_info.email accountName user_info.id provider
        let account1 := { r.2 with interface_language := chooseInterfaceLanguage env }
        linkAndSync provider r.1 user_info account1

/-! ## The OAuth callback endpoint (`OAuthCallback.get`) -/

/-- Failure modes of `TenantService.create_owner_tenant_if_not_exist`. -/
inductive OwnerTenantError where
  | unauthorized
  | workSpaceNotAllowedCreate
deriving DecidableEq

/-- Modelled from the spec: `TenantService.create_owner_tenant_if_not_exist`
(services/account_service.py, not under src/): when the account has no tenant membership
at all, auto-create a default personal workspace when self-creation is allowed, otherwise
fail with the workspace-not-allowed error; the `Unauthorized` failure mode is declared
for the caller's handler but never produced by this model. -/
def create_owner_tenant_if_not_exist (env : SysEnv) (db : DB) (account : Account) :
    Except OwnerTenantError (DB × Account) :=
  if (get_join_tenants db account).isEmpty then
    if env.is_allow_create_workspace then
      let r := create_tenant db (account.name ++ "\x27s Workspace")
      let db2 := create_tenant_member r.1 r.2 account "owner"
      .ok (db2, { account with current_tenant_id := some r.2.id })
    else .error .workSpaceNotAllowedCreate
  else .ok (db, account)

/-- The observable outcome of one callback request: the JSON 400 errors, the sign-in
redirects carrying a `message`, the invite-settings redirect, the successful console
redirect with session cookies, or an unhandled exception (HTTP 500). -/
inductive CallbackResult where
  | invalidProvider
  | codeRequired
  | oauthProcessFailed
  | redirectSignin (message : String)
  | redirectInviteSettings (invite_token : String)
  | loginSuccess (account_id : Nat)
  | unhandledError
deriving DecidableEq

/-- The per-request environment of the callback: whether the provider name resolves, the
`code` and `state` query parameters, the combined result of
`get_access_token` plus `get_user_info` (an `httpx.RequestError` or the identity), and
the invitation service. -/
structure CallbackEnv where
  provider_known : Bool
  code : Option String
  state : Option String
  exchange : Except Unit OAuthUserInfo
  is_valid_invite_token : String → Bool
  get_invitation_by_token : String → Option (Option String)
  sys : SysEnv

/-- The sign-in redirect message for workspace errors (source lines 130-134, 151-155). -/
def workspaceContactAdminMessage : String :=
  "Workspace not found, please contact system admin to invite you to join in a workspace."

/-- The part of the callback after identity exchange and invite handling (source lines
126-167): account resolution/provisioning, the status gate, first-login activation,
default-workspace creation, and session issuance. -/
def oauthLoginFlow (provider : String) (env : CallbackEnv) (db : DB)
    (user_info : OAuthUserInfo) : CallbackResult × DB :=
  match _generate_account env.sys provider db user_info with
  | .error .accountNotFound => (.redirectSignin "Account not found.", db)
  | .error .workSpaceNotFound => (.redirectSignin workspaceContactAdminMessage, db)
  | .error .workSpaceNotAllowedCreate => (.redirectSignin workspaceContactAdminMessage, db)
  | .error (.accountRegister d) => (.redirectSignin d, db)
  | .error .multipleResultsFound => (.unhandledError, db)
  | .ok (db1, account) =>
      if account.status == .banned then (.redirectSignin "Account is banned.", db1)
      else
        let account2 :=
          if account.status == .pending then
            { account with status := .active, init_time := some env.sys.now }
          else account
        match create_owner_tenant_if_not_exist env.sys db1 account2 with
        | .error .unauthorized => (.redirectSignin "Workspace not found.", db1)
        | .error .workSpaceNotAllowedCreate =>
            (.redirectSignin workspaceContactAdminMessage, db1)
        | .ok (db2, account3) => (.loginSuccess account3.id, db2)

/-- `OAuthCallback.get(provider)` (source lines 91-167): provider resolution, the
`code` requirement, the provider exchange, invite-token handling, then the login flow. -/
def OAuthCallback.get (provider : String) (env : CallbackEnv) (db : DB) :
    CallbackResult × DB :=
  if !env.provider_known then (.invalidProvider, db)
  else
    let invite_token := pyTruthy env.state
    match pyTruthy env.code with
    | none => (.codeRequired, db)
    | some _ =>
        match env.exchange with
        | .error _ => (.oauthProcessFailed, db)
        | .ok user_info =>
            match invite_token with
            | some tok =>
                if env.is_valid_invite_token tok then
                  match env.get_invitation_by_token tok with
                  | some invitation_email =>
                      if invitation_email ≠ some user_info.email then
                        (.redirectSignin "Invalid invitation token.", db)
                      else (.redirectInviteSettings tok, db)
                  | none => (.redirectInviteSettings tok, db)
                else oauthLoginFlow provider env db user_info
            | none => oauthLoginFlow provider env db user_info

/-! ## Concrete instances used by counterexamples and witnesses -/

deriving instance DecidableEq for Except

/-- The empty database. -/
def emptyDB : DB :=
  { tenants := [], mappings := [], memberships := [], accounts := [], integrates := [],
    nextId := 0 }

/-- A generic active account with no current tenant. -/
def accU : Account :=
  { id := 100, email := "u@x", name := "U", status := .active,
    interface_language := "en", current_tenant_id := none, init_time := none }

/-- A system environment with registration disabled, billing disabled, and every email
on the freeze list. -/
def sysNoReg : SysEnv :=
  { is_allow_register := false, is_allow_create_workspace := false, billing_enabled := false,
    email_in_freeze := fun _ => true, preferred_lang := none, languages := ["en-US"],
    now := 7 }

/-- An external identity that belongs to one Casdoor organization. -/
def uiOrg1 : OAuthUserInfo :=
  { id := "oid", name := some "B", email := "b@x", organizations := ["Org1"] }

/-- A banned account that is a member of tenant 0. -/
def accBanned : Account :=
  { id := 10, email := "b@x", name := "B", status := .banned,
    interface_language := "en", current_tenant_id := some 0, init_time := none }

/-- A database holding the banned account, its workspace membership, and its provider
identity link. -/
def dbBanned : DB :=
  { tenants := [{ id := 0, name := "W", casdoor_org_id := none, parent_id := none,
                  plan := "basic", status := "normal" }],
    mappings := [], memberships := [⟨0, 10, "owner"⟩], accounts := [accBanned],
    integrates := [⟨"github", "oid", 10⟩], nextId := 11 }

/-- A callback environment for an ordinary login (no invite token) resolving to
`uiOrg1`. -/
def envPlain : CallbackEnv :=
  { provider_known := true, code := some "c", state := none, exchange := .ok uiOrg1,
    is_valid_invite_token := fun _ => false, get_invitation_by_token := fun _ => none,
    sys := sysNoReg }

/-- A callback environment carrying a valid invite token whose invitation is bound to a
different email than `uiOrg1.email`. -/
def envInvite : CallbackEnv :=
  { provider_known := true, code := some "c", state := some "tok",
    exchange := .ok uiOrg1,
    is_valid_invite_token := fun _ => true,
    get_invitation_by_token := fun _ => some (some "other@x"),
    sys := sysNoReg }

/-- A database with an account whose membership points at the pre-existing tenant 5. -/
def dbPreJoined : DB :=
  { tenants := [{ id := 5, name := "Old", casdoor_org_id := none, parent_id := none,
                  plan := "basic", status := "normal" }],
    mappings := [], memberships := [⟨5, 100, "owner"⟩], accounts := [], integrates := [],
    nextId := 6 }

/-- A database with two accounts: one linked to (github, oid) and another that merely
shares the email of `uiOrg1`. -/
def dbLookup : DB :=
  { tenants := [], mappings := [], memberships := [],
    accounts :=
      [{ id := 1, email := "b@x", name := "ByMail", status := .active,
         interface_language := "en", current_tenant_id := none, init_time := none },
       { id := 2, email := "b@x", name := "ByLink", status := .active,
         interface_language := "en", current_tenant_id := none, init_time := none }],
    integrates := [⟨"github", "oid", 2⟩], nextId := 3 }

/-! ## Predicates about the synchronization loop -/

/-- The cumulative keys the level loop builds from `partsSoFar` over the remaining
`parts`: `root + "/" + "-".join(partsSoFar + [part])` for each successive `part`. -/
def levelKeysAux (rootOrg : String) (partsSoFar : List String) :
    List String → List String
  | [] => []
  | part :: rest =>
      (rootOrg ++ "/" ++ pyJoin "-" (partsSoFar ++ [part])) ::
        levelKeysAux rootOrg (partsSoFar ++ [part]) rest

/-- Every organization key `syncOneOrg` touches for one organization string: nothing for
the empty string, the root key plus all cumulative level keys for a path string, and the
string itself for a flat string. -/
def levelKeys (org : String) : List String :=
  if org == "" then []
  else if pyContains org '/' then
    (pySplitOnce '/' org).1 ::
      levelKeysAux (pySplitOnce '/' org).1 [] (pySplit '-' (pySplitOnce '/' org).2)
  else [org]

/-- Extension order between synchronization loop states: dictionary entries keep their
values, the id list and the tenant/mapping/membership tables only grow at the end, and
the account and identity-link tables are untouched. -/
def SyncLe (s s2 : SyncSt) : Prop :=
  (∀ k v, dlookup s.dict k = some v → dlookup s2.dict k = some v) ∧
  (∃ ext, s2.userTids = s.userTids ++ ext) ∧
  (∃ ext, s2.db.tenants = s.db.tenants ++ ext) ∧
  (∃ ext, s2.db.mappings = s.db.mappings ++ ext) ∧
  (∃ ext, s2.db.memberships = s.db.memberships ++ ext) ∧
  s2.db.integrates = s.db.integrates ∧
  s2.db.accounts = s.db.accounts ∧
  s.db.nextId ≤ s2.db.nextId

/-- Well-formedness of the database: every mapping row points at an existing tenant, and
all tenant ids and membership tenant ids are below the id generator. -/
def WFdb (db : DB) : Prop :=
  (∀ m ∈ db.mappings, ∃ t ∈ db.tenants, t.id = m.tenant_id) ∧
  (∀ t ∈ db.tenants, t.id < db.nextId) ∧
  (∀ m ∈ db.memberships, m.tenant_id < db.nextId)

/-- The loop invariant of `_sync_user_organizations`: the in-memory dict mirrors the
mapping table, `user_tenant_ids` mirrors the account's resolvable memberships, and the
database stays well-formed. -/
def SyncInv (account : Account) (s : SyncSt) : Prop :=
  s.dict = buildOrgDict s.db.mappings ∧
  s.userTids = (get_join_tenants s.db account).map (fun t => t.id) ∧
  WFdb s.db

/-- An organization key already fully handled by the state: the dict resolves it and the
resolved tenant id is already in `user_tenant_ids`. -/
def KeyDone (s : SyncSt) (k : String) : Prop :=
  ∃ v, dlookup s.dict k = some v ∧ v ∈ s.userTids

/-- An organization string all of whose keys are fully handled. -/
def OrgDone (s : SyncSt) (org : String) : Prop :=
  ∀ k ∈ levelKeys org, KeyDone s k

/-! ## Theorems -/

/-- C3: for the organization string "Acme/dept-team" starting from a state with no
matching mappings, `_sync_user_organizations` creates exactly three tenants — key "Acme"
with no parent, key "Acme/dept" named "dept" whose parent is the "Acme" tenant, and key
"Acme/dept-team" named "team" whose parent is the "Acme/dept" tenant — and attaches the
account as owner to all three levels. -/
theorem sync_acme_dept_team_three_levels :
    _sync_user_organizations emptyDB accU ["Acme/dept-team"] =
    ({ tenants :=
         [{ id := 0, name := "Acme", casdoor_org_id := some "Acme", parent_id := none,
            plan := "basic", status := "normal" },
          { id := 1, name := "dept", casdoor_org_id := some "Acme/dept",
            parent_id := some 0, plan := "basic", status := "normal" },
          { id := 2, name := "team", casdoor_org_id := some "Acme/dept-team",
            parent_id := some 1, plan := "basic", status := "normal" }],
       mappings := [⟨"Acme", 0⟩, ⟨"Acme/dept", 1⟩, ⟨"Acme/dept-team", 2⟩],
       memberships := [⟨0, 100, "owner"⟩, ⟨1, 100, "owner"⟩, ⟨2, 100, "owner"⟩],
       accounts := [], integrates := [], nextId := 3 },
     { accU with current_tenant_id := some 0 }) := by
  decide

/-- C4 counterexample: for the organization string "root/" the code does NOT behave as
the flat single-tenant case for "root": besides the root tenant it creates a second,
child tenant keyed "root/" with empty name whose parent is the root, and attaches the
account to both levels (Python `"".split("-")` yields `[""]`, one empty segment). -/
theorem sync_root_slash_not_flat :
    (_sync_user_organizations emptyDB accU ["root/"]).1.tenants =
      [{ id := 0, name := "root", casdoor_org_id := some "root", parent_id := none,
         plan := "basic", status := "normal" },
       { id := 1, name := "", casdoor_org_id := some "root/", parent_id := some 0,
         plan := "basic", status := "normal" }] ∧
    (_sync_user_organizations emptyDB accU ["root/"]).1.memberships.length = 2 := by
  decide

/-- C6 counterexample: the account has no current tenant but one pre-existing membership
(tenant 5); syncing ["NewOrg"] attaches the account to the newly created tenant 6, yet
the current tenant selected is 5 — a tenant the account was NOT attached to during this
sync — refuting the claim that the first tenant attached during the sync is selected. -/
theorem sync_current_tenant_prefers_preexisting :
    (_sync_user_organizations dbPreJoined accU ["NewOrg"]).2.current_tenant_id = some 5 ∧
    (_sync_user_organizations dbPreJoined accU ["NewOrg"]).1.memberships =
      [⟨5, 100, "owner"⟩, ⟨6, 100, "owner"⟩] ∧
    dbPreJoined.memberships = [⟨5, 100, "owner"⟩] ∧
    accU.current_tenant_id = none := by
  decide

/-- C5 counterexample: registration is disabled and the email IS on the freeze list, but
billing is disabled, so provisioning fails with the generic "Invalid email or password"
message instead of the specific freeze-list message. -/
theorem registration_disabled_frozen_email_generic_error :
    sysNoReg.is_allow_register = false ∧
    sysNoReg.email_in_freeze uiOrg1.email = true ∧
    _generate_account sysNoReg "github" emptyDB uiOrg1 =
      .error (.accountRegister "Invalid email or password") ∧
    "Invalid email or password" ≠ freezeErrorMessage := by
  decide

/-- C1 counterexample: a BANNED account logging in through the callback is indeed
rejected with the banned message, but the tenant-hierarchy synchronization has already
run: the returned state contains a new tenant and a new membership created for the
banned account, refuting "rejected before any tenant-hierarchy synchronization work runs
... no side effects beyond the rejection". -/
theorem banned_login_has_sync_side_effects :
    (OAuthCallback.get "github" envPlain dbBanned).1 =
      .redirectSignin "Account is banned." ∧
    (OAuthCallback.get "github" envPlain dbBanned).2.tenants.length = 2 ∧
    dbBanned.tenants.length = 1 ∧
    (OAuthCallback.get "github" envPlain dbBanned).2.memberships.length = 2 ∧
    dbBanned.memberships.length = 1 := by
  decide

/-- C10: a callback request to a known provider without a (truthy) `code` query
parameter returns the 400 "Authorization code is required" error, leaves the database
unchanged, and does not depend on the OAuth provider exchange at all (the same result
for every possible exchange outcome). -/
theorem callback_missing_code_no_effect (provider : String) (env : CallbackEnv) (db : DB)
    (hp : env.provider_known = true) (hc : pyTruthy env.code = none) :
    OAuthCallback.get provider env db = (.codeRequired, db) ∧
    ∀ ex, OAuthCallback.get provider { env with exchange := ex } db =
      (.codeRequired, db) := by
  constructor
  · simp [OAuthCallback.get, hp, hc]
  · intro ex
    simp [OAuthCallback.get, hp, hc]

/-- Witness for `callback_missing_code_no_effect` at a concrete environment. -/
theorem callback_missing_code_no_effect_witness :
    OAuthCallback.get "github" { envPlain with code := none } emptyDB =
      (.codeRequired, emptyDB) :=
  (callback_missing_code_no_effect "github" { envPlain with code := none } emptyDB
    (by decide) (by decide)).1

/-- C7: when the callback carries a valid invite token whose invitation is bound to an
email different from the external identity's email, the flow redirects with the
invite-mismatch message and the database is returned unchanged: no account and no tenant
is created, and neither account resolution nor provisioning nor hierarchy sync runs. -/
theorem invite_email_mismatch_rejected (provider : String) (env : CallbackEnv) (db : DB)
    (tok c : String) (ui : OAuthUserInfo) (bound : Option String)
    (hp : env.provider_known = true)
    (hc : pyTruthy env.code = some c)
    (hs : pyTruthy env.state = some tok)
    (hex : env.exchange = .ok ui)
    (hv : env.is_valid_invite_token tok = true)
    (hi : env.get_invitation_by_token tok = some bound)
    (hm : bound ≠ some ui.email) :
    OAuthCallback.get provider env db = (.redirectSignin "Invalid invitation token.", db) := by
  simp [OAuthCallback.get, hp, hc, hs, hex, hv, hi, hm]

/-- Witness for `invite_email_mismatch_rejected` at a concrete environment. -/
theorem invite_email_mismatch_rejected_witness :
    OAuthCallback.get "github" envInvite dbBanned =
      (.redirectSignin "Invalid invitation token.", dbBanned) :=
  invite_email_mismatch_rejected "github" envInvite dbBanned "tok" "c" uiOrg1
    (some "other@x") (by decide) (by decide) (by decide) (by decide) (by decide)
    (by decide) (by decide)

/-- C8: `_get_account_by_openid_or_email` resolves the (provider, open id) link first —
when that yields an account, that account is returned and the email path is never
consulted — and only when the link lookup is absent does it return the (at most one)
account whose email matches exactly; the function reads but never writes the state. -/
theorem lookup_by_openid_then_email (db : DB) (provider : String) (ui : OAuthUserInfo) :
    (∀ a, get_by_openid db provider ui.id = some a →
        _get_account_by_openid_or_email db provider ui = .ok (some a)) ∧
    (get_by_openid db provider ui.id = none →
        (db.accounts.filter (fun a => a.email == ui.email)).length ≤ 1 →
        _get_account_by_openid_or_email db provider ui =
          .ok (db.accounts.filter (fun a => a.email == ui.email)).head?) := by
  constructor
  · intro a ha
    simp [_get_account_by_openid_or_email, ha]
  · intro hnone hlen
    rw [_get_account_by_openid_or_email, hnone]
    rcases hfil : db.accounts.filter (fun a => a.email == ui.email) with _ | ⟨a, _ | ⟨b, l⟩⟩
    · rw [hfil]; rfl
    · rw [hfil]; rfl
    · rw [hfil] at hlen
      simp at hlen

/-- Witness for `lookup_by_openid_then_email`: in `dbLookup` the account linked to
(github, oid) wins even though another account with the same email sits earlier in the
accounts table. -/
theorem lookup_by_openid_then_email_witness :
    _get_account_by_openid_or_email dbLookup "github" uiOrg1 =
      .ok (some { id := 2, email := "b@x", name := "ByLink", status := .active,
                  interface_language := "en", current_tenant_id := none,
                  init_time := none }) :=
  (lookup_by_openid_then_email dbLookup "github" uiOrg1).1
    { id := 2, email := "b@x", name := "ByLink", status := .active,
      interface_language := "en", current_tenant_id := none, init_time := none }
    (by decide)

/-- The state `_generate_account` produces from `dbBanned` for `uiOrg1`: the banned
account's hierarchy sync has created the "Org1" tenant, its mapping, and a membership. -/
def dbBannedAfter : DB :=
  { tenants := [{ id := 0, name := "W", casdoor_org_id := none, parent_id := none,
                  plan := "basic", status := "normal" },
                { id := 11, name := "Org1", casdoor_org_id := some "Org1",
                  parent_id := none, plan := "basic", status := "normal" }],
    mappings := [⟨"Org1", 11⟩],
    memberships := [⟨0, 10, "owner"⟩, ⟨11, 10, "owner"⟩],
    accounts := [accBanned],
    integrates := [⟨"github", "oid", 10⟩], nextId := 12 }

/-- C1 (amended): a banned account is rejected with the banned-message redirect, and no
activation, default-workspace creation, or session issuance happens afterwards — but the
rejection comes only after `_generate_account` has completed, so the state returned with
the rejection is the post-`_generate_account` state, which already carries the
provider-link and tenant-hierarchy-synchronization side effects. -/
theorem banned_rejected_with_generate_state (provider : String) (env : CallbackEnv)
    (db db1 : DB) (c : String) (ui : OAuthUserInfo) (account : Account)
    (hp : env.provider_known = true)
    (hc : pyTruthy env.code = some c)
    (hs : pyTruthy env.state = none)
    (hex : env.exchange = .ok ui)
    (hgen : _generate_account env.sys provider db ui = .ok (db1, account))
    (hban : account.status = .banned) :
    OAuthCallback.get provider env db = (.redirectSignin "Account is banned.", db1) := by
  simp [OAuthCallback.get, oauthLoginFlow, hp, hc, hs, hex, hgen, hban]

/-- Witness for `banned_rejected_with_generate_state` at the concrete banned fixture. -/
theorem banned_rejected_with_generate_state_witness :
    OAuthCallback.get "github" envPlain dbBanned =
      (.redirectSignin "Account is banned.", dbBannedAfter) :=
  banned_rejected_with_generate_state "github" envPlain dbBanned dbBannedAfter "c"
    uiOrg1 accBanned (by decide) (by decide) (by decide) (by decide) (by decide)
    (by decide)

/-- C5 (amended): for an unmatched identity with registration disabled, provisioning
fails with the specific freeze-list message exactly when billing is enabled AND the email
is on the freeze list; in every other case (including a frozen email with billing
disabled) it fails with the generic "Invalid email or password" message; in both cases no
account is created and the callback returns the database unchanged. -/
theorem registration_disabled_two_errors (env : SysEnv) (provider : String) (db : DB)
    (ui : OAuthUserInfo)
    (hnone : _get_account_by_openid_or_email db provider ui = .ok none)
    (hreg : env.is_allow_register = false) :
    ((env.billing_enabled && env.email_in_freeze ui.email) = true →
        _generate_account env provider db ui =
          .error (.accountRegister freezeErrorMessage)) ∧
    ((env.billing_enabled && env.email_in_freeze ui.email) = false →
        _generate_account env provider db ui =
          .error (.accountRegister "Invalid email or password")) ∧
    (∀ r, _generate_account env provider db ui ≠ .ok r) ∧
    (∀ cenv : CallbackEnv, ∀ c, cenv.sys = env → cenv.provider_known = true →
        pyTruthy cenv.code = some c → cenv.exchange = .ok ui →
        pyTruthy cenv.state = none →
        (OAuthCallback.get provider cenv db).2 = db) := by
  have hfreeze : (env.billing_enabled && env.email_in_freeze ui.email) = true →
      _generate_account env provider db ui =
        .error (.accountRegister freezeErrorMessage) := by
    intro h
    simp [_generate_account, hnone, hreg, h]
  have hgeneric : (env.billing_enabled && env.email_in_freeze ui.email) = false →
      _generate_account env provider db ui =
        .error (.accountRegister "Invalid email or password") := by
    intro h
    simp [_generate_account, hnone, hreg, h]
  refine ⟨hfreeze, hgeneric, ?_, ?_⟩
  · intro r hok
    cases hb : (env.billing_enabled && env.email_in_freeze ui.email)
    · rw [hgeneric hb] at hok
      exact Except.noConfusion hok
    · rw [hfreeze hb] at hok
      exact Except.noConfusion hok
  · intro cenv c h1 h2 h3 h4 h5
    cases hb : (env.billing_enabled && env.email_in_freeze ui.email)
    · have := hgeneric hb
      rw [← h1] at this
      simp [OAuthCallback.get, oauthLoginFlow, h2, h3, h4, h5, this]
    · have := hfreeze hb
      rw [← h1] at this
      simp [OAuthCallback.get, oauthLoginFlow, h2, h3, h4, h5, this]

/-- Witness for `registration_disabled_two_errors`: with billing enabled and the email
frozen, the freeze-list message is produced. -/
theorem registration_disabled_two_errors_witness :
    _generate_account { sysNoReg with billing_enabled := true } "github" emptyDB uiOrg1 =
      .error (.accountRegister freezeErrorMessage) :=
  (registration_disabled_two_errors { sysNoReg with billing_enabled := true } "github"
    emptyDB uiOrg1 (by decide) (by decide)).1 (by decide)

/-! ## Helper lemmas about the dictionary and the loop state -/

theorem dlookup_mem {d : OrgDict} {k : String} {v : Nat} (h : dlookup d k = some v) :
    (k, v) ∈ d := by
  induction d with
  | nil => simp [dlookup] at h
  | cons e rest ih =>
      obtain ⟨ek, ev⟩ := e
      rw [dlookup] at h
      by_cases hk : (ek == k) = true
      · rw [if_pos hk] at h
        have hv : ev = v := by injection h
        have hke : ek = k := eq_of_beq hk
        subst hv
        subst hke
        exact List.mem_cons_self _ _
      · rw [if_neg hk] at h
        exact List.mem_cons_of_mem _ (ih h)

theorem buildOrgDict_append (ms : List CasdoorOrganizationMapping)
    (m : CasdoorOrganizationMapping) :
    buildOrgDict (ms ++ [m]) = (m.casdoor_org_id, m.tenant_id) :: buildOrgDict ms := by
  simp [buildOrgDict]

theorem dlookup_buildOrgDict_mem {ms : List CasdoorOrganizationMapping} {k : String}
    {v : Nat} (h : dlookup (buildOrgDict ms) k = some v) :
    ∃ m ∈ ms, m.casdoor_org_id = k ∧ m.tenant_id = v := by
  have hmem := dlookup_mem h
  simp only [buildOrgDict, List.mem_reverse, List.mem_map] at hmem
  obtain ⟨m, hm, he⟩ := hmem
  exact ⟨m, hm, congrArg Prod.fst he, congrArg Prod.snd he⟩

theorem find?_append_of_some {α : Type} {p : α → Bool} {l : List α} {x : α}
    (l2 : List α) (h : l.find? p = some x) : (l ++ l2).find? p = some x := by
  rw [List.find?_append, h]
  rfl

theorem syncLe_refl (s : SyncSt) : SyncLe s s :=
  ⟨fun _ _ h => h, ⟨[], by simp⟩, ⟨[], by simp⟩, ⟨[], by simp⟩, ⟨[], by simp⟩,
   rfl, rfl, le_refl _⟩

theorem syncLe_trans {s1 s2 s3 : SyncSt} (h1 : SyncLe s1 s2) (h2 : SyncLe s2 s3) :
    SyncLe s1 s3 := by
  obtain ⟨d1, ⟨u1, hu1⟩, ⟨t1, ht1⟩, ⟨m1, hm1⟩, ⟨b1, hb1⟩, hi1, ha1, hn1⟩ := h1
  obtain ⟨d2, ⟨u2, hu2⟩, ⟨t2, ht2⟩, ⟨m2, hm2⟩, ⟨b2, hb2⟩, hi2, ha2, hn2⟩ := h2
  refine ⟨fun k v h => d2 k v (d1 k v h),
    ⟨u1 ++ u2, by rw [hu2, hu1, List.append_assoc]⟩,
    ⟨t1 ++ t2, by rw [ht2, ht1, List.append_assoc]⟩,
    ⟨m1 ++ m2, by rw [hm2, hm1, List.append_assoc]⟩,
    ⟨b1 ++ b2, by rw [hb2, hb1, List.append_assoc]⟩,
    hi2.trans hi1, ha2.trans ha1, hn1.trans hn2⟩

theorem keyDone_mono {s s2 : SyncSt} {k : String} (hle : SyncLe s s2)
    (h : KeyDone s k) : KeyDone s2 k := by
  obtain ⟨v, hvl, hvm⟩ := h
  obtain ⟨hd, ⟨u, hu⟩, _⟩ := hle
  exact ⟨v, hd k v hvl, by rw [hu]; exact List.mem_append_left _ hvm⟩

theorem orgDone_mono {s s2 : SyncSt} {org : String} (hle : SyncLe s s2)
    (h : OrgDone s org) : OrgDone s2 org :=
  fun k hk => keyDone_mono hle (h k hk)

/-- Membership rows of other ids resolve identically after a fresh tenant append. -/
theorem get_join_tenants_tenant_append (db : DB) (account : Account) (t : Tenant)
    (hwf3 : ∀ m ∈ db.memberships, m.tenant_id < db.nextId) (ht : t.id = db.nextId) :
    get_join_tenants { db with tenants := db.tenants ++ [t] } account =
      get_join_tenants db account := by
  unfold get_join_tenants
  refine List.filterMap_congr ?_
  intro m hm
  have hmlt : m.tenant_id < db.nextId :=
    hwf3 m (List.mem_of_mem_filter hm)
  have hne : (t.id == m.tenant_id) = false := by
    refine beq_eq_false_iff_ne.mpr ?_
    rw [ht]
    exact Nat.ne_of_gt hmlt
  show (db.tenants ++ [t]).find? (fun tt => tt.id == m.tenant_id) =
    db.tenants.find? (fun tt => tt.id == m.tenant_id)
  cases hf : db.tenants.find? (fun tt => tt.id == m.tenant_id) with
  | none => simp only [List.find?_append, hf, Option.or, List.find?, hne]
  | some x => exact find?_append_of_some _ hf

/-! ## Step lemmas for tenant creation and lookup -/

theorem createTenantWithMapping_inv {account : Account} {s : SyncSt}
    (hinv : SyncInv account s) {name key : String} {parent : Option Nat}
    (habs : dlookup s.dict key = none) :
    SyncInv account (createTenantWithMapping s name key parent).2 ∧
    SyncLe s (createTenantWithMapping s name key parent).2 ∧
    dlookup (createTenantWithMapping s name key parent).2.dict key =
      some (createTenantWithMapping s name key parent).1 ∧
    ∃ t ∈ (createTenantWithMapping s name key parent).2.db.tenants,
      t.id = (createTenantWithMapping s name key parent).1 := by
  obtain ⟨hdict, huser, hwf1, hwf2, hwf3⟩ := hinv
  set tid := s.db.nextId with htid
  set t : Tenant :=
    { id := tid, name := name, casdoor_org_id := some key, parent_id := parent,
      plan := "basic", status := "normal" } with hts
  refine ⟨⟨?_, ?_, ?_, ?_, ?_⟩, ⟨?_, ⟨[], by simp [createTenantWithMapping]⟩,
    ⟨[t], by simp [createTenantWithMapping]⟩,
    ⟨[⟨key, tid⟩], by simp [createTenantWithMapping]⟩,
    ⟨[], by simp [createTenantWithMapping]⟩,
    rfl, rfl, by simp [createTenantWithMapping]⟩, ?_, ?_⟩
  · show (key, tid) :: s.dict = buildOrgDict (s.db.mappings ++ [⟨key, tid⟩])
    rw [buildOrgDict_append, hdict]
  · show s.userTids = _
    rw [huser]
    congr 1
    exact (get_join_tenants_tenant_append s.db account t hwf3 rfl).symm
  · intro m hm
    rcases List.mem_append.mp hm with hold | hnew
    · obtain ⟨x, hx, hxe⟩ := hwf1 m hold
      exact ⟨x, List.mem_append_left _ hx, hxe⟩
    · have : m = ⟨key, tid⟩ := by simpa using hnew
      subst this
      exact ⟨t, List.mem_append_right _ (by simp), rfl⟩
  · intro x hx
    rcases List.mem_append.mp hx with hold | hnew
    · exact Nat.lt_succ_of_lt (hwf2 x hold)
    · have : x = t := by simpa using hnew
      subst this
      exact Nat.lt_succ_self _
  · intro m hm
    exact Nat.lt_succ_of_lt (hwf3 m hm)
  · intro k v hv
    show dlookup ((key, tid) :: s.dict) k = some v
    rw [dlookup]
    have hne : (key == k) = false := by
      refine beq_eq_false_iff_ne.mpr ?_
      intro he
      rw [he] at habs
      rw [habs] at hv
      exact Option.noConfusion hv
    rw [if_neg (by simp [hne])]
    exact hv
  · show dlookup ((key, tid) :: s.dict) key = some tid
    rw [dlookup, if_pos (by simp)]
  · exact ⟨t, List.mem_append_right _ (by simp), rfl⟩

theorem ensureOrgTenant_inv {account : Account} {s : SyncSt} (hinv : SyncInv account s)
    (key name : String) (parent : Option Nat) :
    SyncInv account (ensureOrgTenant s key name parent).2 ∧
    SyncLe s (ensureOrgTenant s key name parent).2 ∧
    dlookup (ensureOrgTenant s key name parent).2.dict key =
      some (ensureOrgTenant s key name parent).1 ∧
    ∃ t ∈ (ensureOrgTenant s key name parent).2.db.tenants,
      t.id = (ensureOrgTenant s key name parent).1 := by
  cases hl : dlookup s.dict key with
  | some tid =>
      have hres : ensureOrgTenant s key name parent = (tid, s) := by
        rw [ensureOrgTenant, hl]
      rw [hres]
      refine ⟨hinv, syncLe_refl s, hl, ?_⟩
      obtain ⟨hdict, _, hwf1, _, _⟩ := hinv
      rw [hdict] at hl
      obtain ⟨m, hm, hk, hv⟩ := dlookup_buildOrgDict_mem hl
      obtain ⟨t, ht, hte⟩ := hwf1 m hm
      exact ⟨t, ht, by rw [hte, hv]⟩
  | none =>
      have hres : ensureOrgTenant s key name parent =
          createTenantWithMapping s name key parent := by
        rw [ensureOrgTenant, hl]
      rw [hres]
      exact createTenantWithMapping_inv hinv hl

/-! ## Step lemmas for membership attachment -/

theorem joined_ids_mem (db : DB) (account : Account) {m : TenantAccountJoin}
    (hm : m ∈ db.memberships) (hacc : m.account_id = account.id) {t : Tenant}
    (ht : db.tenants.find? (fun tt => tt.id == m.tenant_id) = some t) :
    t.id ∈ (get_join_tenants db account).map (fun tt => tt.id) := by
  simp only [get_join_tenants, List.mem_map, List.mem_filterMap, List.mem_filter]
  exact ⟨t, ⟨m, ⟨hm, by simp [hacc]⟩, ht⟩, rfl⟩

theorem attachAccount_inv {account : Account} {s : SyncSt} (hinv : SyncInv account s)
    (tid : Nat) :
    SyncInv account (attachAccount account s tid) ∧
    SyncLe s (attachAccount account s tid) ∧
    (attachAccount account s tid).dict = s.dict ∧
    (attachAccount account s tid).db.tenants = s.db.tenants ∧
    ((∃ t ∈ s.db.tenants, t.id = tid) → tid ∈ (attachAccount account s tid).userTids) := by
  obtain ⟨hdict, huser, hwf1, hwf2, hwf3⟩ := hinv
  by_cases hmem : tid ∈ s.userTids
  · rw [attachAccount, if_pos hmem]
    exact ⟨⟨hdict, huser, hwf1, hwf2, hwf3⟩, syncLe_refl s, rfl, rfl, fun _ => hmem⟩
  · rw [attachAccount, if_neg hmem]
    cases hf : s.db.tenants.find? (fun t => t.id == tid) with
    | none =>
        refine ⟨⟨hdict, huser, hwf1, hwf2, hwf3⟩, syncLe_refl s, rfl, rfl, ?_⟩
        intro ⟨t, htm, hte⟩
        have : (s.db.tenants.find? (fun t => t.id == tid)).isSome := by
          rw [List.find?_isSome]
          exact ⟨t, htm, by simp [hte]⟩
        rw [hf] at this
        simp at this
    | some t =>
        dsimp only
        have htid : t.id = tid := by
          have := List.find?_some hf
          exact eq_of_beq this
        have hanyf : s.db.memberships.any
            (fun m => m.tenant_id == t.id && m.account_id == account.id) = false := by
          by_contra hc
          rw [Bool.not_eq_false, List.any_eq_true] at hc
          obtain ⟨m, hm, hmb⟩ := hc
          rw [Bool.and_eq_true] at hmb
          have hm1 : m.tenant_id = t.id := eq_of_beq hmb.1
          have hm2 : m.account_id = account.id := eq_of_beq hmb.2
          have hfind : s.db.tenants.find? (fun tt => tt.id == m.tenant_id) = some t := by
            rw [hm1, htid]
            exact hf
          have := joined_ids_mem s.db account hm hm2 hfind
          rw [← huser, htid] at this
          exact hmem this
        have hctm : create_tenant_member s.db t account "owner" =
            { s.db with memberships :=
                s.db.memberships ++ [⟨t.id, account.id, "owner"⟩] } := by
          rw [create_tenant_member, if_neg (by rw [hanyf]; exact Bool.false_ne_true)]
        rw [hctm]
        refine ⟨⟨hdict, ?_, hwf1, hwf2, ?_⟩,
          ⟨fun k v h => h, ⟨[tid], rfl⟩, ⟨[], by simp⟩, ⟨[], by simp⟩,
           ⟨[⟨t.id, account.id, "owner"⟩], rfl⟩, rfl, rfl, le_refl _⟩,
          rfl, rfl, fun _ => by simp⟩
        · show s.userTids ++ [tid] = _
          unfold get_join_tenants
          rw [List.filter_append]
          have hfil : List.filter (fun m => m.account_id == account.id)
              [(⟨t.id, account.id, "owner"⟩ : TenantAccountJoin)] =
              [⟨t.id, account.id, "owner"⟩] := by simp
          rw [hfil, List.filterMap_append]
          have hfm : List.filterMap
              (fun m => s.db.tenants.find? (fun tt => tt.id == m.tenant_id))
              [(⟨t.id, account.id, "owner"⟩ : TenantAccountJoin)] = [t] := by
            simp only [List.filterMap]
            rw [htid, hf]
          rw [hfm, List.map_append, huser]
          simp [htid, get_join_tenants]
        · intro m hm
          rcases List.mem_append.mp hm with hold | hnew
          · exact hwf3 m hold
          · have : m = ⟨t.id, account.id, "owner"⟩ := by simpa using hnew
            subst this
            exact hwf2 t (List.mem_of_find?_eq_some hf)

theorem attachAll_inv {account : Account} : ∀ (tids : List Nat) (s : SyncSt),
    SyncInv account s →
    SyncInv account (attachAll account s tids) ∧
    SyncLe s (attachAll account s tids) ∧
    (attachAll account s tids).dict = s.dict ∧
    (attachAll account s tids).db.tenants = s.db.tenants ∧
    (∀ v ∈ tids, (∃ t ∈ s.db.tenants, t.id = v) →
      v ∈ (attachAll account s tids).userTids) := by
  intro tids
  induction tids with
  | nil =>
      intro s hinv
      exact ⟨hinv, syncLe_refl s, rfl, rfl, by simp⟩
  | cons v rest ih =>
      intro s hinv
      have hstep := attachAccount_inv hinv v
      obtain ⟨hinv1, hle1, hdict1, hten1, hmem1⟩ := hstep
      have hrec := ih (attachAccount account s v) hinv1
      obtain ⟨hinv2, hle2, hdict2, hten2, hmem2⟩ := hrec
      have heq : attachAll account s (v :: rest) =
          attachAll account (attachAccount account s v) rest := rfl
      rw [heq]
      refine ⟨hinv2, syncLe_trans hle1 hle2, hdict2.trans hdict1,
        hten2.trans hten1, ?_⟩
      intro w hw hback
      rcases List.mem_cons.mp hw with hwv | hwrest
      · subst hwv
        have hin1 := hmem1 hback
        obtain ⟨_, ⟨u, hu⟩, _⟩ := hle2
        rw [hu]
        exact List.mem_append_left _ hin1
      · refine hmem2 w hwrest ?_
        rw [hten1]
        exact hback

theorem attachAll_noop {account : Account} : ∀ (tids : List Nat) (s : SyncSt),
    (∀ v ∈ tids, v ∈ s.userTids) → attachAll account s tids = s := by
  intro tids
  induction tids with
  | nil => intro s _; rfl
  | cons v rest ih =>
      intro s h
      have hv : v ∈ s.userTids := h v (List.mem_cons_self _ _)
      have hstep : attachAccount account s v = s := by
        rw [attachAccount, if_pos hv]
      show attachAll account (attachAccount account s v) rest = s
      rw [hstep]
      exact ih s (fun w hw => h w (List.mem_cons_of_mem _ hw))

/-! ## Step lemmas for the level loop -/

theorem processLevels_inv {account : Account} {rootOrg : String} :
    ∀ (parts partsSoFar : List String) (parentTid : Nat) (levels : List Nat)
      (s : SyncSt), SyncInv account s →
    SyncInv account
        (processLevels account rootOrg partsSoFar parentTid levels s parts).1 ∧
    SyncLe s (processLevels account rootOrg partsSoFar parentTid levels s parts).1 ∧
    ∃ vs, (processLevels account rootOrg partsSoFar parentTid levels s parts).2 =
        levels ++ vs ∧
      (∀ k ∈ levelKeysAux rootOrg partsSoFar parts, ∃ v ∈ vs,
        dlookup (processLevels account rootOrg partsSoFar parentTid levels s
          parts).1.dict k = some v) ∧
      (∀ v ∈ vs, ∃ t ∈ (processLevels account rootOrg partsSoFar parentTid levels s
        parts).1.db.tenants, t.id = v) := by
  intro parts
  induction parts with
  | nil =>
      intro partsSoFar parentTid levels s hinv
      refine ⟨hinv, syncLe_refl s, [], by simp [processLevels], ?_, ?_⟩
      · intro k hk
        simp [levelKeysAux] at hk
      · intro v hv
        simp at hv
  | cons part rest ih =>
      intro partsSoFar parentTid levels s hinv
      obtain ⟨hinv1, hle1, hlook1, hback1⟩ := ensureOrgTenant_inv hinv
        (rootOrg ++ "/" ++ pyJoin "-" (partsSoFar ++ [part])) part (some parentTid)
      obtain ⟨hinv2, hle2, vs', hvs', hkeys', hback'⟩ :=
        ih (partsSoFar ++ [part])
          (ensureOrgTenant s (rootOrg ++ "/" ++ pyJoin "-" (partsSoFar ++ [part]))
            part (some parentTid)).1
          (levels ++ [(ensureOrgTenant s
            (rootOrg ++ "/" ++ pyJoin "-" (partsSoFar ++ [part]))
            part (some parentTid)).1])
          (ensureOrgTenant s (rootOrg ++ "/" ++ pyJoin "-" (partsSoFar ++ [part]))
            part (some parentTid)).2 hinv1
      have hunf : processLevels account rootOrg partsSoFar parentTid levels s
          (part :: rest) =
          processLevels account rootOrg (partsSoFar ++ [part])
            (ensureOrgTenant s (rootOrg ++ "/" ++ pyJoin "-" (partsSoFar ++ [part]))
              part (some parentTid)).1
            (levels ++ [(ensureOrgTenant s
              (rootOrg ++ "/" ++ pyJoin "-" (partsSoFar ++ [part]))
              part (some parentTid)).1])
            (ensureOrgTenant s (rootOrg ++ "/" ++ pyJoin "-" (partsSoFar ++ [part]))
              part (some parentTid)).2 rest := rfl
      rw [hunf]
      refine ⟨hinv2, syncLe_trans hle1 hle2,
        (ensureOrgTenant s (rootOrg ++ "/" ++ pyJoin "-" (partsSoFar ++ [part]))
          part (some parentTid)).1 :: vs', ?_, ?_, ?_⟩
      · rw [hvs', List.append_assoc]
        rfl
      · intro k hk
        rw [levelKeysAux] at hk
        rcases List.mem_cons.mp hk with hkk | hkr
        · subst hkk
          exact ⟨_, List.mem_cons_self _ _, hle2.1 _ _ hlook1⟩
        · obtain ⟨v, hv, hvl⟩ := hkeys' k hkr
          exact ⟨v, List.mem_cons_of_mem _ hv, hvl⟩
      · intro v hv
        rcases List.mem_cons.mp hv with hvv | hvr
        · subst hvv
          obtain ⟨t, ht, hte⟩ := hback1
          obtain ⟨_, _, ⟨ext, hext⟩, _⟩ := hle2
          exact ⟨t, by rw [hext]; exact List.mem_append_left _ ht, hte⟩
        · exact hback' v hvr

theorem processLevels_noop {account : Account} {rootOrg : String} :
    ∀ (parts partsSoFar : List String) (parentTid : Nat) (levels : List Nat)
      (s : SyncSt),
    (∀ k ∈ levelKeysAux rootOrg partsSoFar parts, KeyDone s k) →
    ∃ vs, processLevels account rootOrg partsSoFar parentTid levels s parts =
        (s, levels ++ vs) ∧ ∀ v ∈ vs, v ∈ s.userTids := by
  intro parts
  induction parts with
  | nil =>
      intro _ _ levels s _
      exact ⟨[], by simp [processLevels], by simp⟩
  | cons part rest ih =>
      intro partsSoFar parentTid levels s hdone
      have hkd : KeyDone s (rootOrg ++ "/" ++ pyJoin "-" (partsSoFar ++ [part])) := by
        apply hdone
        rw [levelKeysAux]
        exact List.mem_cons_self _ _
      obtain ⟨v, hvl, hvm⟩ := hkd
      have hens : ensureOrgTenant s
          (rootOrg ++ "/" ++ pyJoin "-" (partsSoFar ++ [part])) part
          (some parentTid) = (v, s) := by
        rw [ensureOrgTenant, hvl]
      have hunf : processLevels account rootOrg partsSoFar parentTid levels s
          (part :: rest) =
          processLevels account rootOrg (partsSoFar ++ [part])
            (ensureOrgTenant s (rootOrg ++ "/" ++ pyJoin "-" (partsSoFar ++ [part]))
              part (some parentTid)).1
            (levels ++ [(ensureOrgTenant s
              (rootOrg ++ "/" ++ pyJoin "-" (partsSoFar ++ [part]))
              part (some parentTid)).1])
            (ensureOrgTenant s (rootOrg ++ "/" ++ pyJoin "-" (partsSoFar ++ [part]))
              part (some parentTid)).2 rest := rfl
      rw [hunf, hens]
      dsimp only
      obtain ⟨vs', hrec, hmem'⟩ := ih (partsSoFar ++ [part]) v (levels ++ [v]) s
        (fun k hk => hdone k (by rw [levelKeysAux]; exact List.mem_cons_of_mem _ hk))
      refine ⟨v :: vs', ?_, ?_⟩
      · rw [hrec, List.append_assoc]
        rfl
      · intro w hw
        rcases List.mem_cons.mp hw with h1 | h2
        · subst h1
          exact hvm
        · exact hmem' w h2

/-! ## Step lemmas for one organization string -/

theorem syncOneOrg_inv {account : Account} {s : SyncSt} (hinv : SyncInv account s)
    (org : String) :
    SyncInv account (syncOneOrg account s org) ∧ SyncLe s (syncOneOrg account s org) := by
  rw [syncOneOrg]
  by_cases h1 : (org == "") = true
  · rw [if_pos h1]
    exact ⟨hinv, syncLe_refl s⟩
  · rw [if_neg h1]
    by_cases h2 : pyContains org '/' = true
    · rw [if_pos h2]
      dsimp only
      obtain ⟨hinv1, hle1, hlook1, hback1⟩ := ensureOrgTenant_inv hinv
        (pySplitOnce '/' org).1 (pySplitOnce '/' org).1 none
      obtain ⟨hinv2, hle2, vs, hvs, hkeys, hback⟩ :=
        processLevels_inv (pySplit '-' (pySplitOnce '/' org).2) []
          (ensureOrgTenant s (pySplitOnce '/' org).1 (pySplitOnce '/' org).1 none).1
          [(ensureOrgTenant s (pySplitOnce '/' org).1 (pySplitOnce '/' org).1 none).1]
          (ensureOrgTenant s (pySplitOnce '/' org).1 (pySplitOnce '/' org).1 none).2
          hinv1
      obtain ⟨hinv3, hle3, _, _, _⟩ := attachAll_inv
        (processLevels account (pySplitOnce '/' org).1 []
          (ensureOrgTenant s (pySplitOnce '/' org).1 (pySplitOnce '/' org).1 none).1
          [(ensureOrgTenant s (pySplitOnce '/' org).1 (pySplitOnce '/' org).1 none).1]
          (ensureOrgTenant s (pySplitOnce '/' org).1 (pySplitOnce '/' org).1 none).2
          (pySplit '-' (pySplitOnce '/' org).2)).2
        (processLevels account (pySplitOnce '/' org).1 []
          (ensureOrgTenant s (pySplitOnce '/' org).1 (pySplitOnce '/' org).1 none).1
          [(ensureOrgTenant s (pySplitOnce '/' org).1 (pySplitOnce '/' org).1 none).1]
          (ensureOrgTenant s (pySplitOnce '/' org).1 (pySplitOnce '/' org).1 none).2
          (pySplit '-' (pySplitOnce '/' org).2)).1 hinv2
      exact ⟨hinv3, syncLe_trans hle1 (syncLe_trans hle2 hle3)⟩
    · rw [if_neg h2]
      dsimp only
      obtain ⟨hinv1, hle1, hlook1, hback1⟩ := ensureOrgTenant_inv hinv org org none
      obtain ⟨hinv2, hle2, _, _, _⟩ := attachAccount_inv hinv1
        (ensureOrgTenant s org org none).1
      exact ⟨hinv2, syncLe_trans hle1 hle2⟩

theorem syncOneOrg_done {account : Account} {s : SyncSt} (hinv : SyncInv account s)
    (org : String) : OrgDone (syncOneOrg account s org) org := by
  intro k hk
  rw [levelKeys] at hk
  by_cases h1 : (org == "") = true
  · rw [if_pos h1] at hk
    simp at hk
  · rw [if_neg h1] at hk
    by_cases h2 : pyContains org '/' = true
    · rw [if_pos h2] at hk
      rw [syncOneOrg, if_neg h1, if_pos h2]
      dsimp only
      obtain ⟨hinv1, hle1, hlook1, hback1⟩ := ensureOrgTenant_inv hinv
        (pySplitOnce '/' org).1 (pySplitOnce '/' org).1 none
      obtain ⟨hinv2, hle2, vs, hvs, hkeys, hback⟩ :=
        processLevels_inv (pySplit '-' (pySplitOnce '/' org).2) []
          (ensureOrgTenant s (pySplitOnce '/' org).1 (pySplitOnce '/' org).1 none).1
          [(ensureOrgTenant s (pySplitOnce '/' org).1 (pySplitOnce '/' org).1 none).1]
          (ensureOrgTenant s (pySplitOnce '/' org).1 (pySplitOnce '/' org).1 none).2
          hinv1
      obtain ⟨hinv3, hle3, hdict3, hten3, hmem3⟩ := attachAll_inv
        (processLevels account (pySplitOnce '/' org).1 []
          (ensureOrgTenant s (pySplitOnce '/' org).1 (pySplitOnce '/' org).1 none).1
          [(ensureOrgTenant s (pySplitOnce '/' org).1 (pySplitOnce '/' org).1 none).1]
          (ensureOrgTenant s (pySplitOnce '/' org).1 (pySplitOnce '/' org).1 none).2
          (pySplit '-' (pySplitOnce '/' org).2)).2
        (processLevels account (pySplitOnce '/' org).1 []
          (ensureOrgTenant s (pySplitOnce '/' org).1 (pySplitOnce '/' org).1 none).1
          [(ensureOrgTenant s (pySplitOnce '/' org).1 (pySplitOnce '/' org).1 none).1]
          (ensureOrgTenant s (pySplitOnce '/' org).1 (pySplitOnce '/' org).1 none).2
          (pySplit '-' (pySplitOnce '/' org).2)).1 hinv2
      rcases List.mem_cons.mp hk with hroot | haux
      · subst hroot
        refine ⟨(ensureOrgTenant s (pySplitOnce '/' org).1
          (pySplitOnce '/' org).1 none).1, ?_, ?_⟩
        · rw [hdict3]
          exact hle2.1 _ _ hlook1
        · refine hmem3 _ ?_ ?_
          · rw [hvs]
            exact List.mem_append_left _ (List.mem_cons_self _ _)
          · obtain ⟨t, ht, hte⟩ := hback1
            obtain ⟨_, _, ⟨ext, hext⟩, _⟩ := hle2
            exact ⟨t, by rw [hext]; exact List.mem_append_left _ ht, hte⟩
      · obtain ⟨v, hv, hvl⟩ := hkeys k haux
        refine ⟨v, ?_, ?_⟩
        · rw [hdict3]
          exact hvl
        · refine hmem3 v ?_ (hback v hv)
          rw [hvs]
          exact List.mem_append_right _ hv
    · rw [if_neg h2] at hk
      rw [syncOneOrg, if_neg h1, if_neg h2]
      dsimp only
      obtain ⟨hinv1, hle1, hlook1, hback1⟩ := ensureOrgTenant_inv hinv org org none
      obtain ⟨hinv2, hle2, hdict2, hten2, hmem2⟩ := attachAccount_inv hinv1
        (ensureOrgTenant s org org none).1
      obtain rfl : k = org := by simpa using hk
      refine ⟨(ensureOrgTenant s k k none).1, ?_, ?_⟩
      · rw [hdict2]
        exact hlook1
      · exact hmem2 hback1

theorem syncOneOrg_noop {account : Account} {s : SyncSt}
    {org : String} (hdone : OrgDone s org) : syncOneOrg account s org = s := by
  rw [syncOneOrg]
  by_cases h1 : (org == "") = true
  · rw [if_pos h1]
  · rw [if_neg h1]
    by_cases h2 : pyContains org '/' = true
    · rw [if_pos h2]
      dsimp only
      have hkroot : KeyDone s (pySplitOnce '/' org).1 := by
        apply hdone
        rw [levelKeys, if_neg h1, if_pos h2]
        exact List.mem_cons_self _ _
      obtain ⟨v0, hv0l, hv0m⟩ := hkroot
      have hens : ensureOrgTenant s (pySplitOnce '/' org).1
          (pySplitOnce '/' org).1 none = (v0, s) := by
        rw [ensureOrgTenant, hv0l]
      rw [hens]
      dsimp only
      obtain ⟨vs, hpl, hvm⟩ := processLevels_noop
        (pySplit '-' (pySplitOnce '/' org).2) [] v0 [v0] s
        (fun k hk => hdone k
          (by rw [levelKeys, if_neg h1, if_pos h2]; exact List.mem_cons_of_mem _ hk))
      rw [hpl]
      dsimp only
      apply attachAll_noop
      intro w hw
      rcases List.mem_append.mp hw with h | h
      · obtain rfl : w = v0 := by simpa using h
        exact hv0m
      · exact hvm w h
    · rw [if_neg h2]
      dsimp only
      have hk : KeyDone s org := by
        apply hdone
        rw [levelKeys, if_neg h1, if_neg h2]
        exact List.mem_cons_self _ _
      obtain ⟨v, hvl, hvm⟩ := hk
      have hens : ensureOrgTenant s org org none = (v, s) := by
        rw [ensureOrgTenant, hvl]
      rw [hens]
      dsimp only
      rw [attachAccount, if_pos hvm]

/-! ## Lemmas for the organization fold and idempotence -/

theorem runSyncOrgs_inv {account : Account} : ∀ (orgs : List String) (s : SyncSt),
    SyncInv account s →
    SyncInv account (runSyncOrgs account s orgs) ∧
    SyncLe s (runSyncOrgs account s orgs) := by
  intro orgs
  induction orgs with
  | nil =>
      intro s hinv
      exact ⟨hinv, syncLe_refl s⟩
  | cons o rest ih =>
      intro s hinv
      obtain ⟨hinv1, hle1⟩ := syncOneOrg_inv hinv o
      obtain ⟨hinv2, hle2⟩ := ih (syncOneOrg account s o) hinv1
      exact ⟨hinv2, syncLe_trans hle1 hle2⟩

theorem runSyncOrgs_done {account : Account} : ∀ (orgs : List String) (s : SyncSt),
    SyncInv account s → ∀ org ∈ orgs, OrgDone (runSyncOrgs account s orgs) org := by
  intro orgs
  induction orgs with
  | nil =>
      intro s _ org h
      simp at h
  | cons o rest ih =>
      intro s hinv org h
      obtain ⟨hinv1, hle1⟩ := syncOneOrg_inv hinv o
      rcases List.mem_cons.mp h with rfl | hr
      · exact orgDone_mono (runSyncOrgs_inv rest (syncOneOrg account s org) hinv1).2
          (syncOneOrg_done hinv org)
      · exact ih (syncOneOrg account s o) hinv1 org hr

theorem runSyncOrgs_noop {account : Account} : ∀ (orgs : List String) (s : SyncSt),
    (∀ org ∈ orgs, OrgDone s org) → runSyncOrgs account s orgs = s := by
  intro orgs
  induction orgs with
  | nil =>
      intro s _
      rfl
  | cons o rest ih =>
      intro s h
      have h1 : syncOneOrg account s o = s := syncOneOrg_noop (h o (List.mem_cons_self _ _))
      show runSyncOrgs account (syncOneOrg account s o) rest = s
      rw [h1]
      exact ih s (fun org hr => h org (List.mem_cons_of_mem _ hr))

theorem get_join_tenants_id_congr (db : DB) {a b : Account} (h : a.id = b.id) :
    get_join_tenants db a = get_join_tenants db b := by
  unfold get_join_tenants
  rw [h]

/-- The synchronized account keeps its id (only the current tenant may change). -/
theorem sync_snd_id (db : DB) (account : Account) (orgs : List String) :
    (_sync_user_organizations db account orgs).2.id = account.id := by
  rw [_sync_user_organizations]
  split
  · rfl
  · dsimp only
    split
    · split <;> rfl
    · rfl

/-- C2: from a well-formed database, running `_sync_user_organizations` twice with the
same organization list is the same as running it once — the second run creates no
tenant, mapping, or membership rows and leaves the account (in particular its
current-tenant selection) unchanged. -/
theorem sync_idempotent (db : DB) (account : Account) (orgs : List String)
    (hwf : WFdb db) :
    _sync_user_organizations (_sync_user_organizations db account orgs).1
      (_sync_user_organizations db account orgs).2 orgs =
      _sync_user_organizations db account orgs := by
  by_cases hemp : orgs.isEmpty = true
  · simp [_sync_user_organizations, hemp]
  · have hne : ¬ orgs.isEmpty = true := hemp
    have hinv0 : SyncInv account (initSyncSt db account) := ⟨rfl, rfl, hwf⟩
    obtain ⟨hinvF, hleF⟩ := runSyncOrgs_inv orgs (initSyncSt db account) hinv0
    have hdoneF := runSyncOrgs_done orgs (initSyncSt db account) hinv0
    set sF := runSyncOrgs account (initSyncSt db account) orgs with hsF
    have hrunEq : ∀ acc2 : Account, acc2.id = account.id →
        runSyncOrgs acc2 (initSyncSt sF.db acc2) orgs = sF := by
      intro acc2 hid
      have hinit2 : initSyncSt sF.db acc2 = sF := by
        obtain ⟨hdict, huser, _⟩ := hinvF
        show SyncSt.mk sF.db (buildOrgDict sF.db.mappings)
          ((get_join_tenants sF.db acc2).map (fun t => t.id)) = sF
        rw [← hdict, get_join_tenants_id_congr _ hid, ← huser]
      rw [hinit2]
      exact runSyncOrgs_noop orgs sF hdoneF
    have hsync2 : ∀ acc2 : Account, acc2.id = account.id →
        _sync_user_organizations sF.db acc2 orgs =
          (sF.db,
            match acc2.current_tenant_id, sF.userTids with
            | none, tid0 :: _ =>
                (match sF.db.tenants.find? (fun t => t.id == tid0) with
                 | some t => { acc2 with current_tenant_id := some t.id }
                 | none => acc2)
            | _, _ => acc2) := by
      intro acc2 hid
      rw [_sync_user_organizations, if_neg hne]
      dsimp only
      rw [hrunEq acc2 hid]
    have hrun1 : _sync_user_organizations db account orgs =
        (sF.db,
          match account.current_tenant_id, sF.userTids with
          | none, tid0 :: _ =>
              (match sF.db.tenants.find? (fun t => t.id == tid0) with
               | some t => { account with current_tenant_id := some t.id }
               | none => account)
          | _, _ => account) := by
      rw [_sync_user_organizations, if_neg hne]
    rw [hrun1]
    cases hc : account.current_tenant_id with
    | some c =>
        dsimp only
        rw [hsync2 account rfl, hc]
    | none =>
        cases hut : sF.userTids with
        | nil =>
            dsimp only
            rw [hsync2 account rfl, hc, hut]
        | cons t0 rest =>
            cases hfind : sF.db.tenants.find? (fun t => t.id == t0) with
            | none =>
                dsimp only
                rw [hfind]
                rw [hsync2 account rfl, hc, hut]
                dsimp only
                rw [hfind]
            | some t =>
                dsimp only
                rw [hfind]
                rw [hsync2 { account with current_tenant_id := some t.id } rfl]

/-! ## Well-formedness preservation outside the loop -/

theorem syncLe_integrates {s s2 : SyncSt} (h : SyncLe s s2) :
    s2.db.integrates = s.db.integrates := h.2.2.2.2.2.1

theorem WFdb_link (db : DB) (provider open_id : String) (account : Account)
    (hwf : WFdb db) : WFdb (link_account_integrate db provider open_id account) := by
  rw [link_account_integrate]
  split
  · exact hwf
  · exact hwf

theorem WFdb_create_tenant (db : DB) (name : String) (hwf : WFdb db) :
    WFdb (create_tenant db name).1 := by
  obtain ⟨h1, h2, h3⟩ := hwf
  refine ⟨?_, ?_, ?_⟩
  · intro m hm
    obtain ⟨t, ht, hte⟩ := h1 m hm
    exact ⟨t, List.mem_append_left _ ht, hte⟩
  · intro t ht
    rcases List.mem_append.mp ht with h | h
    · exact Nat.lt_succ_of_lt (h2 t h)
    · rw [List.mem_singleton] at h
      subst h
      exact Nat.lt_succ_self _
  · intro m hm
    exact Nat.lt_succ_of_lt (h3 m hm)

theorem WFdb_create_tenant_member (db : DB) (t : Tenant) (account : Account)
    (role : String) (hwf : WFdb db) (ht : t ∈ db.tenants) :
    WFdb (create_tenant_member db t account role) := by
  rw [create_tenant_member]
  split
  · exact hwf
  · obtain ⟨h1, h2, h3⟩ := hwf
    refine ⟨h1, h2, ?_⟩
    intro m hm
    rcases List.mem_append.mp hm with h | h
    · exact h3 m h
    · have : m = ⟨t.id, account.id, role⟩ := by simpa using h
      subst this
      exact h2 t ht

theorem WFdb_register (db : DB) (email name open_id provider : String)
    (hwf : WFdb db) : WFdb (register_account db email name open_id provider).1 := by
  obtain ⟨h1, h2, h3⟩ := hwf
  exact ⟨h1, fun t ht => Nat.lt_succ_of_lt (h2 t ht),
    fun m hm => Nat.lt_succ_of_lt (h3 m hm)⟩

theorem link_account_integrate_mem (db : DB) (provider open_id : String)
    (account : Account) :
    ∃ l ∈ (link_account_integrate db provider open_id account).integrates,
      l.provider = provider ∧ l.open_id = open_id ∧ l.account_id = account.id := by
  rw [link_account_integrate]
  split
  · next hany =>
      rw [List.any_eq_true] at hany
      obtain ⟨l, hl, hb⟩ := hany
      rw [Bool.and_eq_true, Bool.and_eq_true] at hb
      exact ⟨l, hl, eq_of_beq hb.1.1, eq_of_beq hb.1.2, eq_of_beq hb.2⟩
  · exact ⟨⟨provider, open_id, account.id⟩,
      List.mem_append_right _ (by simp), rfl, rfl, rfl⟩

/-- The facts the provisioning tail needs about one sync run from a well-formed state:
identity links are untouched, the account id is stable, and every level key of every
organization in the list ends up with a mapping row. -/
theorem sync_facts_wf (db : DB) (account : Account) (orgs : List String)
    (hwf : WFdb db) :
    (_sync_user_organizations db account orgs).1.integrates = db.integrates ∧
    (_sync_user_organizations db account orgs).2.id = account.id ∧
    ∀ org ∈ orgs, ∀ k ∈ levelKeys org,
      ∃ m ∈ (_sync_user_organizations db account orgs).1.mappings,
        m.casdoor_org_id = k := by
  have hinv0 : SyncInv account (initSyncSt db account) := ⟨rfl, rfl, hwf⟩
  refine ⟨?_, sync_snd_id db account orgs, ?_⟩
  · rw [_sync_user_organizations]
    split
    · rfl
    · dsimp only
      exact syncLe_integrates (runSyncOrgs_inv orgs (initSyncSt db account) hinv0).2
  · intro org ho k hk
    rw [_sync_user_organizations]
    split
    · next hempt =>
        cases orgs with
        | nil => simp at ho
        | cons a l => simp at hempt
    · dsimp only
      obtain ⟨hinvF, _⟩ := runSyncOrgs_inv orgs (initSyncSt db account) hinv0
      obtain ⟨v, hvl, _⟩ := runSyncOrgs_done orgs (initSyncSt db account) hinv0 org ho k hk
      rw [hinvF.1] at hvl
      obtain ⟨m, hm, hkey, _⟩ := dlookup_buildOrgDict_mem hvl
      exact ⟨m, hm, hkey⟩

/-- The common tail of `_generate_account`: after `link_account_integrate` and
`_sync_user_organizations`, the returned state holds the (provider, open id, account)
link and a mapping row for every level key of every organization. -/
theorem linkAndSync_facts (provider : String) (dbX : DB) (ui : OAuthUserInfo)
    (accX : Account) (db1 : DB) (account : Account) (hwfX : WFdb dbX)
    (h : linkAndSync provider dbX ui accX = .ok (db1, account)) :
    (∃ l ∈ db1.integrates, l.provider = provider ∧ l.open_id = ui.id ∧
      l.account_id = account.id) ∧
    (∀ org ∈ ui.organizations, ∀ k ∈ levelKeys org,
      ∃ m ∈ db1.mappings, m.casdoor_org_id = k) := by
  rw [linkAndSync] at h
  injection h with h
  have hdb1 : db1 =
      (_sync_user_organizations (link_account_integrate dbX provider ui.id accX) accX
        ui.organizations).1 := (congrArg Prod.fst h).symm
  have hacc : account =
      (_sync_user_organizations (link_account_integrate dbX provider ui.id accX) accX
        ui.organizations).2 := (congrArg Prod.snd h).symm
  obtain ⟨hint, hid, hkeys⟩ := sync_facts_wf
    (link_account_integrate dbX provider ui.id accX) accX ui.organizations
    (WFdb_link dbX provider ui.id accX hwfX)
  constructor
  · obtain ⟨l, hl, hp, ho, ha⟩ := link_account_integrate_mem dbX provider ui.id accX
    refine ⟨l, ?_, hp, ho, ?_⟩
    · rw [hdb1, hint]
      exact hl
    · rw [hacc, hid]
      exact ha
  · intro org horg k hk
    rw [hdb1]
    exact hkeys org horg k hk

/-- C9: every successful `_generate_account` call — account found by provider link,
found by email fallback, or newly provisioned — has executed both the provider identity
link and the organization sync on the state it returns: the (provider, open id) link row
for the returned account is present, and every level key of every supplied organization
has a mapping row.  Linking and sync are not restricted to newly provisioned accounts;
they run on every login. -/
theorem generate_account_links_and_syncs (env : SysEnv) (provider : String)
    (db db1 : DB) (ui : OAuthUserInfo) (account : Account) (hwf : WFdb db)
    (h : _generate_account env provider db ui = .ok (db1, account)) :
    (∃ l ∈ db1.integrates, l.provider = provider ∧ l.open_id = ui.id ∧
      l.account_id = account.id) ∧
    (∀ org ∈ ui.organizations, ∀ k ∈ levelKeys org,
      ∃ m ∈ db1.mappings, m.casdoor_org_id = k) := by
  rw [_generate_account] at h
  cases hget : _get_account_by_openid_or_email db provider ui with
  | error e =>
      rw [hget] at h
      try dsimp only at h
      exact absurd h (by simp)
  | ok found =>
      rw [hget] at h
      cases found with
      | some account0 =>
          try dsimp only at h
          by_cases hjoin : (get_join_tenants db account0).isEmpty = true
          · rw [if_pos hjoin] at h
            by_cases hallow : env.is_allow_create_workspace = true
            · rw [if_neg (by simp [hallow])] at h
              try dsimp only at h
              refine linkAndSync_facts provider _ ui _ db1 account ?_ h
              exact WFdb_create_tenant_member _ _ _ _
                (WFdb_create_tenant db _ hwf) (by simp [create_tenant])
            · have hallow' : env.is_allow_create_workspace = false := by
                rwa [Bool.not_eq_true] at hallow
              rw [if_pos (by simp [hallow'])] at h
              exact absurd h (by simp)
          · rw [if_neg hjoin] at h
            exact linkAndSync_facts provider db ui account0 db1 account hwf h
      | none =>
          try dsimp only at h
          by_cases hreg : env.is_allow_register = true
          · rw [if_neg (by simp [hreg])] at h
            try dsimp only at h
            refine linkAndSync_facts provider _ ui _ db1 account ?_ h
            exact WFdb_register db ui.email (pyOr ui.name "Dify") ui.id provider hwf
          · have hreg' : env.is_allow_register = false := by
              rwa [Bool.not_eq_true] at hreg
            rw [if_pos (by simp [hreg'])] at h
            split at h <;> exact absurd h (by simp)

/-- Witness for `generate_account_links_and_syncs` at the concrete banned fixture (an
existing account found by provider link, so neither provisioning nor first login). -/
theorem generate_account_links_and_syncs_witness :
    (∃ l ∈ dbBannedAfter.integrates, l.provider = "github" ∧ l.open_id = uiOrg1.id ∧
      l.account_id = accBanned.id) ∧
    (∀ org ∈ uiOrg1.organizations, ∀ k ∈ levelKeys org,
      ∃ m ∈ dbBannedAfter.mappings, m.casdoor_org_id = k) :=
  generate_account_links_and_syncs sysNoReg "github" dbBanned dbBannedAfter uiOrg1
    accBanned (by unfold WFdb; refine ⟨?_, ?_, ?_⟩ <;> decide) (by decide)

/-- Witness for `sync_idempotent` at a concrete well-formed database. -/
theorem sync_idempotent_witness :
    _sync_user_organizations (_sync_user_organizations dbPreJoined accU ["NewOrg"]).1
      (_sync_user_organizations dbPreJoined accU ["NewOrg"]).2 ["NewOrg"] =
      _sync_user_organizations dbPreJoined accU ["NewOrg"] :=
  sync_idempotent dbPreJoined accU ["NewOrg"]
    (by unfold WFdb; refine ⟨?_, ?_, ?_⟩ <;> decide)

/-- C4 (amended): for every organization string of the form `root ++ "/"` (a separator
with nothing after it), starting from the empty state, `_sync_user_organizations` does
NOT reduce to the flat single-tenant case: Python splits the empty remainder into one
empty segment, so besides the root tenant keyed `root` it creates a second, child tenant
keyed by the full string with empty name and the root as parent, and attaches the account
as owner to both levels. -/
theorem sync_trailing_separator_creates_empty_child (org root : String)
    (account : Account)
    (h1 : (org == "") = false)
    (h2 : pyContains org '/' = true)
    (h3 : pySplitOnce '/' org = (root, ""))
    (h4 : root ≠ org)
    (h5 : root ++ "/" = org)
    (hcur : account.current_tenant_id = none) :
    _sync_user_organizations emptyDB account [org] =
    ({ tenants :=
         [{ id := 0, name := root, casdoor_org_id := some root, parent_id := none,
            plan := "basic", status := "normal" },
          { id := 1, name := "", casdoor_org_id := some org, parent_id := some 0,
            plan := "basic", status := "normal" }],
       mappings := [⟨root, 0⟩, ⟨org, 1⟩],
       memberships := [⟨0, account.id, "owner"⟩, ⟨1, account.id, "owner"⟩],
       accounts := [], integrates := [], nextId := 2 },
     { account with current_tenant_id := some 0 }) := by
  have hps : pySplit '-' "" = [""] := rfl
  simp only [_sync_user_organizations, List.isEmpty_cons, Bool.false_eq_true,
    if_false, runSyncOrgs, List.foldl, initSyncSt, buildOrgDict, List.map_nil,
    List.reverse_nil, get_join_tenants, List.filter_nil, List.filterMap_nil,
    syncOneOrg, h1, h2, h3, hps, if_true, emptyDB]
  simp only [processLevels, List.nil_append, pyJoin, h5, ensureOrgTenant, dlookup,
    createTenantWithMapping, attachAll, attachAccount, create_tenant_member,
    List.foldl, h4, hcur]
  simp [h4, hcur, List.find?, dlookup]

/-- Witness for `sync_trailing_separator_creates_empty_child` at the literal "root/". -/
theorem sync_trailing_separator_creates_empty_child_witness :
    _sync_user_organizations emptyDB accU ["root/"] =
    ({ tenants :=
         [{ id := 0, name := "root", casdoor_org_id := some "root", parent_id := none,
            plan := "basic", status := "normal" },
          { id := 1, name := "", casdoor_org_id := some "root/", parent_id := some 0,
            plan := "basic", status := "normal" }],
       mappings := [⟨"root", 0⟩, ⟨"root/", 1⟩],
       memberships := [⟨0, accU.id, "owner"⟩, ⟨1, accU.id, "owner"⟩],
       accounts := [], integrates := [], nextId := 2 },
     { accU with current_tenant_id := some 0 }) :=
  sync_trailing_separator_creates_empty_child "root/" "root" accU (by decide)
    (by decide) (by decide) (by decide) (by decide) (by decide)

/-- The head of the account's joined-tenant id list always has a resolvable tenant row. -/
theorem joined_head_find (db : DB) (account : Account) {t0 : Nat}
    (h : t0 ∈ (get_join_tenants db account).map (fun t => t.id)) :
    ∃ t, db.tenants.find? (fun tt => tt.id == t0) = some t ∧ t.id = t0 := by
  simp only [get_join_tenants, List.mem_map, List.mem_filterMap, List.mem_filter] at h
  obtain ⟨t, ⟨m, ⟨hm, hacc⟩, hfind⟩, hid⟩ := h
  have hp := List.find?_some hfind
  have h2 : t.id = m.tenant_id := eq_of_beq hp
  have hmt : m.tenant_id = t0 := h2.symm.trans hid
  rw [hmt] at hfind
  exact ⟨t, hfind, hid⟩

/-- C6 (amended): when the account has no current tenant, `_sync_user_organizations`
selects the head of `user_tenant_ids`.  That list starts with the account's pre-existing
memberships, so: if the account already had a joined tenant, the FIRST pre-existing
joined tenant becomes current (even though it was not attached during this sync); only
when the account had no memberships at all is the head the first tenant attached during
this sync. -/
theorem sync_current_tenant_head_of_user_tenant_ids (db : DB) (account : Account)
    (orgs : List String) (hwf : WFdb db)
    (hcur : account.current_tenant_id = none) (hne : orgs.isEmpty = false) :
    (∀ t0 rest, (get_join_tenants db account).map (fun t => t.id) = t0 :: rest →
       (_sync_user_organizations db account orgs).2.current_tenant_id = some t0) ∧
    ((get_join_tenants db account).map (fun t => t.id) = [] →
       ∀ t0 rest2,
         (runSyncOrgs account (initSyncSt db account) orgs).userTids = t0 :: rest2 →
         (_sync_user_organizations db account orgs).2.current_tenant_id = some t0) := by
  have hinv0 : SyncInv account (initSyncSt db account) := ⟨rfl, rfl, hwf⟩
  obtain ⟨hinvF, hleF⟩ := runSyncOrgs_inv orgs (initSyncSt db account) hinv0
  have hnot : ¬ orgs.isEmpty = true := by
    rw [hne]
    exact Bool.false_ne_true
  constructor
  · intro t0 rest hjoined
    obtain ⟨tt, hfind0, hid0⟩ := joined_head_find db account
      (by rw [hjoined]; exact List.mem_cons_self _ _)
    obtain ⟨_, ⟨uext, huext⟩, ⟨text, htext⟩, _⟩ := hleF
    have hutF : (runSyncOrgs account (initSyncSt db account) orgs).userTids =
        t0 :: (rest ++ uext) := by
      rw [huext]
      rw [show (initSyncSt db account).userTids =
        (get_join_tenants db account).map (fun t => t.id) from rfl]
      rw [hjoined]
      rfl
    have hfindF : (runSyncOrgs account (initSyncSt db account) orgs).db.tenants.find?
        (fun x => x.id == t0) = some tt := by
      rw [htext]
      exact find?_append_of_some _ hfind0
    rw [_sync_user_organizations, if_neg hnot]
    dsimp only
    rw [hcur, hutF]
    dsimp only
    rw [hfindF]
    dsimp only
    rw [hid0]
  · intro hjoined t0 rest2 hut
    have huserF := hinvF.2.1
    obtain ⟨tt, hfind0, hid0⟩ := joined_head_find
      (runSyncOrgs account (initSyncSt db account) orgs).db account
      (by rw [← huserF, hut]; exact List.mem_cons_self _ _)
    rw [_sync_user_organizations, if_neg hnot]
    dsimp only
    rw [hcur, hut]
    dsimp only
    rw [hfind0]
    dsimp only
    rw [hid0]

/-- Witness for `sync_current_tenant_head_of_user_tenant_ids`: the pre-joined fixture
selects tenant 5, the pre-existing membership. -/
theorem sync_current_tenant_head_witness :
    (_sync_user_organizations dbPreJoined accU ["NewOrg"]).2.current_tenant_id =
      some 5 :=
  (sync_current_tenant_head_of_user_tenant_ids dbPreJoined accU ["NewOrg"]
    (by unfold WFdb; refine ⟨?_, ?_, ?_⟩ <;> decide) (by decide) (by decide)).1
    5 [] (by decide)
